import Mathlib

/-!
Verification of the carbon-py dataflow runtime core against its
natural-language specification.

The definitions below are shallow embeddings of the Python source:

* `DataQueue` and its operations embed `DataQueue` from
  `src/carbon/data/data.py` (lines 225-274).  The pyarrow table rows are
  modelled as a list of records; records are modelled as natural numbers.
  The rows of the real table carry no sync marking, so we carry the sync
  tag of each append as a ghost component of each buffered pair: dropping
  the second components of `buffer` gives exactly the rows of
  `self.arrow_table`, and no operation of the embedding inspects the tag.
* `MethodState` embeds the queue/readiness state of `DataMethod` from
  `src/carbon/core/datamethod.py`.
* `mergeStep`/`buildProcessMapping` embed the union-find style group
  merging of `ExecutionGraph._build_processes` from
  `src/carbon/core/execution.py` (lines 106-130).
* The remaining sections embed the connection construction and module
  registration logic of `src/carbon/core/connection.py` and
  `src/carbon/core/module.py`.
-/

namespace CarbonSpec

/-- Embedding of `DataQueue` (src/carbon/data/data.py:225-231).
`size` is the capacity, `num_sync_items` the pending-sync counter.
`buffer` lists the rows of `self.arrow_table` oldest-first; the `Bool`
in each pair is a ghost tag recording whether the row was appended with
`sync = True` (the real table stores no such tag). -/
structure DataQueue where
  size : Nat
  sticky : Bool
  buffer : List (Nat × Bool)
  num_sync_items : Nat
deriving DecidableEq, Repr

/-- Embedding of `DataQueue.__init__`: empty table, zero pending sync. -/
def DataQueue.empty (size : Nat) (sticky : Bool) : DataQueue :=
  ⟨size, sticky, [], 0⟩

/-- Embedding of `DataQueue.append` plus `DataQueue._append_table`
(src/carbon/data/data.py:233-250).  The sync counter is incremented
first; `_append_table` then drops the oldest row exactly when
`num_rows >= size + num_sync_items`, and concatenates the new row. -/
def DataQueue.append (q : DataQueue) (x : Nat) (sync : Bool) : DataQueue :=
  let ns := if sync then q.num_sync_items + 1 else q.num_sync_items
  let base := if q.size + ns ≤ q.buffer.length then q.buffer.drop 1 else q.buffer
  { q with buffer := base ++ [(x, sync)], num_sync_items := ns }

/-- Embedding of `DataQueue.pop` plus `DataQueue._pop_table`
(src/carbon/data/data.py:252-268).  Returns `none` when the queue is
empty (the Python code fails its assertion there).  The sync counter is
decremented when positive (natural subtraction).  When `sticky` and the
table has exactly one row, the head is returned and retained. -/
def DataQueue.pop (q : DataQueue) : Option ((Nat × Bool) × DataQueue) :=
  match q.buffer with
  | [] => none
  | first :: rest =>
    let ns := q.num_sync_items - 1
    if q.sticky = true ∧ rest = [] then
      some (first, { q with num_sync_items := ns })
    else
      some (first, { q with buffer := rest, num_sync_items := ns })

/-- States of a queue reachable from the empty queue by any sequence of
`append` and `pop` calls.  `popOnEmpty` models a `pop()` on an empty
queue: the Python method decrements `num_sync_items` (when positive)
before `_pop_table` raises, so the decrement survives the exception. -/
inductive QueueReach (size : Nat) (sticky : Bool) : DataQueue → Prop where
  | init : QueueReach size sticky (DataQueue.empty size sticky)
  | append (q : DataQueue) (x : Nat) (s : Bool) :
      QueueReach size sticky q → QueueReach size sticky (q.append x s)
  | pop (q : DataQueue) (r : (Nat × Bool) × DataQueue) :
      QueueReach size sticky q → q.pop = some r → QueueReach size sticky r.2
  | popOnEmpty (q : DataQueue) :
      QueueReach size sticky q → q.buffer = [] →
      QueueReach size sticky { q with num_sync_items := q.num_sync_items - 1 }

/-- Every reachable queue keeps its construction-time configuration and,
when the capacity is at least 1, satisfies the size bound
`num_rows ≤ size + num_sync_items`. -/
theorem queue_invariant_aux {size : Nat} {sticky : Bool} {q : DataQueue}
    (h : QueueReach size sticky q) :
    q.size = size ∧ q.sticky = sticky ∧
      (1 ≤ size → q.buffer.length ≤ size + q.num_sync_items) := by
  induction h with
  | init => exact ⟨rfl, rfl, fun _ => by simp [DataQueue.empty]⟩
  | append q x s hq ih =>
    obtain ⟨hsz, hst, hb⟩ := ih
    refine ⟨hsz, hst, fun hcap => ?_⟩
    have hb2 := hb hcap
    simp only [DataQueue.append]
    cases s <;> simp only [if_true, if_false, Bool.false_eq_true] <;>
      split <;> simp_all [List.length_append, List.length_drop] <;> omega
  | pop q r hq hp ih =>
    obtain ⟨hsz, hst, hb⟩ := ih
    unfold DataQueue.pop at hp
    cases hbuf : q.buffer with
    | nil => rw [hbuf] at hp; exact absurd hp (by simp)
    | cons first rest =>
      rw [hbuf] at hp
      simp only at hp
      by_cases hcond : q.sticky = true ∧ rest = []
      · rw [if_pos hcond] at hp
        obtain ⟨rfl⟩ := Option.some.injEq _ _ ▸ hp
        refine ⟨hsz, hst, fun hcap => ?_⟩
        simp only
        rw [hcond.2]
        simp
        omega
      · rw [if_neg hcond] at hp
        obtain ⟨rfl⟩ := Option.some.injEq _ _ ▸ hp
        refine ⟨hsz, hst, fun hcap => ?_⟩
        have hb2 := hb hcap
        rw [hbuf] at hb2
        simp only [List.length_cons] at hb2
        simp only [List.length]
        omega
  | popOnEmpty q hq hemp ih =>
    obtain ⟨hsz, hst, hb⟩ := ih
    exact ⟨hsz, hst, fun hcap => by simp [hemp]⟩

/-- Claim C2: in every state reachable from the empty queue by appends
and pops, with capacity at least 1, the number of buffered rows is at
most `capacity + pending_sync`.  (Invariant at spec section 8, item 1,
and section 3 Input Queue.) -/
theorem c2_queue_size_invariant (size : Nat) (sticky : Bool) (q : DataQueue)
    (hcap : 1 ≤ size) (h : QueueReach size sticky q) :
    q.buffer.length ≤ size + q.num_sync_items :=
  (queue_invariant_aux h).2.2 hcap

/-- Witness for C2: the invariant evaluated on the concrete queue of
capacity 1 after the trace append(10, sync), append(20, async). -/
theorem c2_queue_size_invariant_witness :
    (((DataQueue.empty 1 false).append 10 true).append 20 false).buffer.length ≤
      1 + (((DataQueue.empty 1 false).append 10 true).append 20 false).num_sync_items :=
  c2_queue_size_invariant 1 false _ (by decide)
    (QueueReach.append _ 20 false (QueueReach.append _ 10 true QueueReach.init))

/-- Claim C1 as stated by the spec: whenever an append on a reachable
queue triggers the overflow drop (`size + pending_sync ≤ num_rows`
evaluated after the sync increment) while the pending-sync count is
positive, the dropped row — the head, the oldest item — was not appended
with `sync = true`. -/
def ClaimC1 : Prop :=
  ∀ (size : Nat) (sticky : Bool) (q : DataQueue) (x : Nat) (s : Bool)
    (p : Nat × Bool),
    QueueReach size sticky q →
    q.size + (if s then q.num_sync_items + 1 else q.num_sync_items) ≤
      q.buffer.length →
    0 < (if s then q.num_sync_items + 1 else q.num_sync_items) →
    q.buffer.head? = some p →
    p.2 = false

/-- Counterexample for C1: on a capacity-1 queue, after append(10, sync)
and append(20, async), the append of 30 (async) drops the oldest row,
which is the sync-tagged item 10, while `pending_sync = 1 > 0`. -/
theorem c1_counterexample : ¬ ClaimC1 := by
  intro h
  have h2 := h 1 false (((DataQueue.empty 1 false).append 10 true).append 20 false)
    30 false (10, true)
    (QueueReach.append _ 20 false (QueueReach.append _ 10 true QueueReach.init))
    (by decide) (by decide) (by decide)
  exact absurd h2 (by decide)

/-- Claim C1 amended: the overflow-drop step of `append` fires exactly
when, after the push, `num_rows` would exceed `size + pending_sync`
(pending counted after the sync increment), and it then removes the
oldest buffered row regardless of the sync tag that row was appended
with; otherwise the buffer is preserved.  In both cases the new row is
placed at the back. -/
theorem c1_overflow_drop_ignores_sync (q : DataQueue) (x : Nat) (s : Bool) :
    (q.append x s).buffer =
      (if q.size + (q.append x s).num_sync_items < q.buffer.length + 1
        then q.buffer.tail else q.buffer) ++ [(x, s)] := by
  cases s <;>
    simp only [DataQueue.append, Nat.lt_succ_iff, List.drop_one,
      Bool.false_eq_true, if_false, if_true]

/-- Number of popped results of `k` successive `pop` calls, with the
resulting queue state; a failing pop (empty queue) stops the sequence. -/
def DataQueue.popN : Nat → DataQueue → List (Nat × Bool) × DataQueue
  | 0, q => ([], q)
  | Nat.succ n, q =>
    match q.pop with
    | none => ([], q)
    | some (v, q2) =>
      let r := DataQueue.popN n q2
      (v :: r.1, r.2)

/-- Claim C7: on a sticky queue of capacity 1, after a single
append(x, sync = false) into the empty queue, every subsequent pop
(before any further append) returns the record equal to x, and the head
stays buffered: the queue state is unchanged by any number of pops.
Clone equality is value equality here: `Data._from_arrow`
(src/carbon/data/data.py:150-167) rebuilds an equal record from the
single retained row. -/
theorem c7_sticky_roundtrip (x : Nat) (k : Nat) :
    DataQueue.popN k ((DataQueue.empty 1 true).append x false) =
      (List.replicate k (x, false), (DataQueue.empty 1 true).append x false) := by
  induction k with
  | zero => rfl
  | succ n ih =>
    have hpop : ((DataQueue.empty 1 true).append x false).pop =
        some ((x, false), (DataQueue.empty 1 true).append x false) := rfl
    simp [DataQueue.popN, hpop, ih, List.replicate_succ]

/-! ### DataMethod input queues and readiness
(src/carbon/core/datamethod.py) -/

/-- Per-slot sink configuration (datamethod.py:44-53). -/
structure SinkConfiguration where
  queue_size : Nat := 1
  sticky : Bool := false
deriving DecidableEq, Repr

/-- Queue/readiness state of a `DataMethod`: one input queue per consumer
slot in slot order, plus `remaining_for_execution`, the set of slot
indices the method currently treats as lacking data
(datamethod.py:73-84). -/
structure MethodState where
  queues : List DataQueue
  remaining : Finset Nat
deriving DecidableEq

/-- Embedding of `DataMethod.__init__` (datamethod.py:56-94): one empty
queue per declared sink slot, built from that slot's configuration, and
`remaining_for_execution` initially containing every slot index. -/
def mkMethod (cfgs : List SinkConfiguration) : MethodState :=
  ⟨cfgs.map (fun c => DataQueue.empty c.queue_size c.sticky),
    Finset.range cfgs.length⟩

/-- Append one item to each of the first `min n (length items)` queues,
mirroring the loop over `zip(self.sink_indices, data)` in the direct
branch of `receive_data` (datamethod.py:218-220). -/
def appendEach : List DataQueue → List Nat → Bool → List DataQueue
  | qs, [], _ => qs
  | [], _ :: _, _ => []
  | q :: qs, x :: xs, s => q.append x s :: appendEach qs xs s

/-- Append to the queue at slot `i`, leaving all others unchanged,
mirroring the merge branch of `receive_data` (datamethod.py:226). -/
def appendAt : List DataQueue → Nat → Nat → Bool → List DataQueue
  | [], _, _, _ => []
  | q :: qs, 0, x, s => q.append x s :: qs
  | q :: qs, Nat.succ i, x, s => q :: appendAt qs i x s

def defaultQueue : DataQueue := DataQueue.empty 0 false

/-- Slot `j` of the queue list holds no buffered row. -/
def emptyAt (qs : List DataQueue) (j : Nat) : Prop :=
  (qs.getD j defaultQueue).buffer = []

instance emptyAtDecidable (qs : List DataQueue) (j : Nat) :
    Decidable (emptyAt qs j) := by
  unfold emptyAt; infer_instance

/-- Direct branch of `receive_data` (datamethod.py:214-220): the payload
tuple is zipped with the slot indices, each element is appended to its
slot queue with the dependency's sync flag, and each touched index is
discarded from `remaining_for_execution`. -/
def receiveDirect (m : MethodState) (items : List Nat) (sync : Bool) :
    MethodState :=
  { queues := appendEach m.queues items sync,
    remaining :=
      m.remaining.filter (fun j => ¬ j < min m.queues.length items.length) }

/-- Merge branch of `receive_data` (datamethod.py:221-229): the single
item is appended to the queue at `merge_sink_index` and that index is
discarded from `remaining_for_execution`. -/
def receiveMerge (m : MethodState) (i : Nat) (x : Nat) (sync : Bool) :
    MethodState :=
  { queues := appendAt m.queues i x sync, remaining := m.remaining.erase i }

/-- The state of one queue after `pop` (identity on an empty queue,
which the code's assertion rules out on the call path). -/
def popOne (q : DataQueue) : DataQueue :=
  match q.pop with
  | none => q
  | some r => r.2

/-- Embedding of `pop_data_for_execution` (datamethod.py:193-205): every
slot queue is popped in slot order, and every slot whose queue is empty
afterwards is re-inserted into `remaining_for_execution`. -/
def popForExecution (m : MethodState) : MethodState :=
  let qs2 := m.queues.map popOne
  { queues := qs2,
    remaining :=
      m.remaining ∪ (Finset.range qs2.length).filter (fun i => emptyAt qs2 i) }

/-- Method states reachable by any sequence of `receive_data` calls
(direct or merge, any payloads and sync flags) and `execute` pops.  The
merge index is in range (out of range the Python code raises a KeyError
before mutating anything), and `execute` requires readiness (the
assertion at datamethod.py:195). -/
inductive MethodReach (cfgs : List SinkConfiguration) : MethodState → Prop where
  | init : MethodReach cfgs (mkMethod cfgs)
  | direct (m : MethodState) (items : List Nat) (sync : Bool) :
      MethodReach cfgs m → MethodReach cfgs (receiveDirect m items sync)
  | merge (m : MethodState) (i : Nat) (x : Nat) (sync : Bool) :
      i < cfgs.length → MethodReach cfgs m →
      MethodReach cfgs (receiveMerge m i x sync)
  | exec (m : MethodState) :
      MethodReach cfgs m → m.remaining = ∅ →
      MethodReach cfgs (popForExecution m)

theorem append_buffer_ne_nil (q : DataQueue) (x : Nat) (s : Bool) :
    (q.append x s).buffer ≠ [] := by
  simp [DataQueue.append]

theorem appendEach_length (qs : List DataQueue) (xs : List Nat) (s : Bool) :
    (appendEach qs xs s).length = qs.length := by
  induction qs generalizing xs with
  | nil => cases xs <;> rfl
  | cons q qs ih => cases xs with
    | nil => rfl
    | cons x xs => simp [appendEach, ih]

theorem appendAt_length (qs : List DataQueue) (i x : Nat) (s : Bool) :
    (appendAt qs i x s).length = qs.length := by
  induction qs generalizing i with
  | nil => rfl
  | cons q qs ih => cases i with
    | zero => rfl
    | succ i => simp [appendAt, ih]

theorem emptyAt_nil (j : Nat) : emptyAt [] j := by
  simp [emptyAt, defaultQueue, DataQueue.empty]

theorem emptyAt_appendEach (qs : List DataQueue) (xs : List Nat) (s : Bool)
    (j : Nat) :
    emptyAt (appendEach qs xs s) j ↔
      (¬ j < min qs.length xs.length) ∧ emptyAt qs j := by
  induction qs generalizing xs j with
  | nil =>
    cases xs <;> simp [appendEach, emptyAt_nil]
  | cons q qs ih =>
    cases xs with
    | nil => simp [appendEach]
    | cons x xs =>
      cases j with
      | zero =>
        simp [appendEach, emptyAt, append_buffer_ne_nil q x s]
      | succ j =>
        have h2 := ih xs j
        simp only [appendEach, emptyAt, List.getD_cons_succ] at h2 ⊢
        rw [h2]
        simp [Nat.succ_min_succ, Nat.succ_lt_succ_iff]

theorem emptyAt_appendAt (qs : List DataQueue) (i x : Nat) (s : Bool)
    (j : Nat) :
    emptyAt (appendAt qs i x s) j ↔
      emptyAt qs j ∧ ¬ (j = i ∧ j < qs.length) := by
  induction qs generalizing i j with
  | nil => simp [appendAt, emptyAt_nil]
  | cons q qs ih =>
    cases i with
    | zero =>
      cases j with
      | zero => simp [appendAt, emptyAt, append_buffer_ne_nil q x s]
      | succ j => simp [appendAt, emptyAt, List.getD_cons_succ]
    | succ i =>
      cases j with
      | zero => simp [appendAt, emptyAt]
      | succ j =>
        have h2 := ih i j
        simp only [appendAt, emptyAt, List.getD_cons_succ] at h2 ⊢
        rw [h2]
        simp [Nat.succ_lt_succ_iff]

theorem getD_map_popOne (qs : List DataQueue) (j : Nat) :
    (qs.map popOne).getD j defaultQueue = popOne (qs.getD j defaultQueue) := by
  induction qs generalizing j with
  | nil => cases j <;> rfl
  | cons q qs ih => cases j with
    | zero => rfl
    | succ j => simpa using ih j

theorem emptyAt_mkMethod (cfgs : List SinkConfiguration) (j : Nat) :
    emptyAt (mkMethod cfgs).queues j := by
  induction cfgs generalizing j with
  | nil => exact emptyAt_nil j
  | cons c cfgs ih =>
    cases j with
    | zero => simp [mkMethod, emptyAt, DataQueue.empty]
    | succ j => simpa [mkMethod, emptyAt] using ih j

/-- Inductive invariant for C3: the queue list keeps one queue per slot,
and `remaining_for_execution` is exactly the set of in-range slot
indices whose queue is empty. -/
def methodInv (cfgs : List SinkConfiguration) (m : MethodState) : Prop :=
  m.queues.length = cfgs.length ∧
    ∀ j, j ∈ m.remaining ↔ (j < m.queues.length ∧ emptyAt m.queues j)

theorem method_invariant {cfgs : List SinkConfiguration} {m : MethodState}
    (h : MethodReach cfgs m) : methodInv cfgs m := by
  induction h with
  | init =>
    refine ⟨by simp [mkMethod], fun j => ?_⟩
    have he := emptyAt_mkMethod cfgs j
    simp only [mkMethod] at he ⊢
    simp [he]
  | direct m items sync hm ih =>
    obtain ⟨hlen, hmem⟩ := ih
    refine ⟨by simp [receiveDirect, appendEach_length, hlen], fun j => ?_⟩
    simp only [receiveDirect, Finset.mem_filter, hmem j,
      emptyAt_appendEach, appendEach_length]
    tauto
  | merge m i x sync hi hm ih =>
    obtain ⟨hlen, hmem⟩ := ih
    refine ⟨by simp [receiveMerge, appendAt_length, hlen], fun j => ?_⟩
    simp only [receiveMerge, Finset.mem_erase, hmem j,
      emptyAt_appendAt, appendAt_length]
    constructor
    · rintro ⟨hne, hjl, hje⟩
      exact ⟨hjl, hje, fun hc => hne hc.1⟩
    · rintro ⟨hjl, hje, hni⟩
      exact ⟨fun hji => hni ⟨hji, hjl⟩, hjl, hje⟩
  | exec m hm hrem ih =>
    obtain ⟨hlen, _⟩ := ih
    refine ⟨by simp [popForExecution, hlen], fun j => ?_⟩
    simp [popForExecution, hrem]

/-- Claim C3: in every reachable state of a `DataMethod` with `n`
consumer slots, the method is ready for execution
(`remaining_for_execution` empty) iff every one of its `n` input queues
is non-empty; a method with `n = 0` is always ready. -/
theorem c3_ready_iff_queues_nonempty (cfgs : List SinkConfiguration)
    (m : MethodState) (h : MethodReach cfgs m) :
    (m.remaining = ∅ ↔ ∀ i < cfgs.length, ¬ emptyAt m.queues i) ∧
      (cfgs.length = 0 → m.remaining = ∅) := by
  obtain ⟨hlen, hmem⟩ := method_invariant h
  have hiff : m.remaining = ∅ ↔ ∀ i < cfgs.length, ¬ emptyAt m.queues i := by
    constructor
    · intro he i hi hemp
      have hin := (hmem i).2 ⟨hlen ▸ hi, hemp⟩
      rw [he] at hin
      exact absurd hin (Finset.not_mem_empty i)
    · intro hall
      refine Finset.eq_empty_iff_forall_not_mem.mpr fun j hj => ?_
      obtain ⟨hjl, hje⟩ := (hmem j).1 hj
      exact hall j (hlen ▸ hjl) hje
  exact ⟨hiff, fun h0 => hiff.mpr (fun i hi => absurd hi (by omega))⟩

/-- Witness for C3: the readiness equivalence evaluated on a concrete
one-slot method that has received a single merge item on slot 0. -/
theorem c3_ready_iff_queues_nonempty_witness :
    ((receiveMerge (mkMethod [{ queue_size := 1, sticky := false }]) 0 5
        false).remaining = ∅ ↔
      ∀ i < ([{ queue_size := 1, sticky := false }] :
          List SinkConfiguration).length,
        ¬ emptyAt (receiveMerge (mkMethod [{ queue_size := 1, sticky := false }])
            0 5 false).queues i) ∧
      (([{ queue_size := 1, sticky := false }] :
          List SinkConfiguration).length = 0 →
        (receiveMerge (mkMethod [{ queue_size := 1, sticky := false }]) 0 5
          false).remaining = ∅) :=
  c3_ready_iff_queues_nonempty _ _
    (MethodReach.merge _ 0 5 false (by decide) MethodReach.init)

/-! ### Process partitioning
(src/carbon/core/execution.py:106-130, `ExecutionGraph._build_processes`) -/

/-- One merge step of `_build_processes`, processing the sync-active
dependency edge `e = (method, dependency)`: when the endpoints are in
different groups, every member of the method's group is relabelled to
the dependency's group index (the `groups` dict in the code holds
exactly the members of each label, so relabelling the merged set is the
pointwise update below); otherwise nothing changes. -/
def mergeStep (f : Nat → Nat) (e : Nat × Nat) : Nat → Nat :=
  if f e.1 = f e.2 then f
  else fun x => if f x = f e.1 then f e.2 else f x

/-- Embedding of `_build_processes`: starting from the mapping that
sends every method to its own group index (the enumeration at
execution.py:109-110, here the identity on method ids), fold the merge
step over the sync-active dependency edges in iteration order. -/
def buildProcessMapping (edges : List (Nat × Nat)) : Nat → Nat :=
  edges.foldl mergeStep id

/-- The sync-active dependency edge list: for each method, each
dependency whose configuration is both sync and active
(execution.py:112-114, via `active_dependency_generator`).  A dependency
entry is `(dependency, sync, active)`. -/
def syncActiveEdges (methods : List Nat)
    (deps : Nat → List (Nat × Bool × Bool)) : List (Nat × Nat) :=
  methods.flatMap fun m =>
    ((deps m).filter fun t => t.2.1 && t.2.2).map fun t => (m, t.1)

/-- `a` and `b` are endpoints of one listed edge. -/
def edgeRel (edges : List (Nat × Nat)) (a b : Nat) : Prop := (a, b) ∈ edges

theorem mergeStep_apply (f : Nat → Nat) (e : Nat × Nat) (x : Nat) :
    mergeStep f e x = if f x = f e.1 then f e.2 else f x := by
  unfold mergeStep
  split
  · rename_i h
    by_cases hx : f x = f e.1 <;> simp [hx, ← h]
  · rfl

theorem eqvGen_congr {r s : Nat → Nat → Prop} (h : ∀ x y, r x y ↔ s x y)
    (a b : Nat) : Relation.EqvGen r a b ↔ Relation.EqvGen s a b :=
  ⟨fun hr => Relation.EqvGen.mono (fun x y => (h x y).1) hr,
    fun hs => Relation.EqvGen.mono (fun x y => (h x y).2) hs⟩

theorem mergeStep_equiv (f : Nat → Nat) (r : Nat → Nat → Prop)
    (hf : ∀ a b, f a = f b ↔ Relation.EqvGen r a b) (e : Nat × Nat) :
    ∀ a b, mergeStep f e a = mergeStep f e b ↔
      Relation.EqvGen (fun x y => r x y ∨ (x = e.1 ∧ y = e.2)) a b := by
  intro a b
  constructor
  · intro hab
    rw [mergeStep_apply f e a, mergeStep_apply f e b] at hab
    have hlift : ∀ u v : Nat, Relation.EqvGen r u v →
        Relation.EqvGen (fun x y => r x y ∨ (x = e.1 ∧ y = e.2)) u v :=
      fun u v h => Relation.EqvGen.mono (fun x y hxy => Or.inl hxy) h
    have hedge : Relation.EqvGen (fun x y => r x y ∨ (x = e.1 ∧ y = e.2))
        e.1 e.2 := Relation.EqvGen.rel _ _ (Or.inr ⟨rfl, rfl⟩)
    by_cases ha : f a = f e.1 <;> by_cases hb : f b = f e.1
    · exact Relation.EqvGen.trans _ _ _ (hlift _ _ ((hf a e.1).mp ha))
        (Relation.EqvGen.symm _ _ (hlift _ _ ((hf b e.1).mp hb)))
    · rw [if_pos ha, if_neg hb] at hab
      exact Relation.EqvGen.trans _ _ _ (hlift _ _ ((hf a e.1).mp ha))
        (Relation.EqvGen.trans _ _ _ hedge (hlift _ _ ((hf e.2 b).mp hab)))
    · rw [if_neg ha, if_pos hb] at hab
      exact Relation.EqvGen.trans _ _ _ (hlift _ _ ((hf a e.2).mp hab))
        (Relation.EqvGen.trans _ _ _ (Relation.EqvGen.symm _ _ hedge)
          (Relation.EqvGen.symm _ _ (hlift _ _ ((hf b e.1).mp hb))))
    · rw [if_neg ha, if_neg hb] at hab
      exact hlift _ _ ((hf a b).mp hab)
  · intro h
    induction h with
    | rel x y hxy =>
      rcases hxy with hr | ⟨hx, hy⟩
      · have hfxy : f x = f y := (hf x y).mpr (Relation.EqvGen.rel _ _ hr)
        rw [mergeStep_apply f e x, mergeStep_apply f e y, hfxy]
      · subst hx; subst hy
        rw [mergeStep_apply f e e.1, mergeStep_apply f e e.2, if_pos rfl]
        by_cases h2 : f e.2 = f e.1 <;> simp [h2]
    | refl x => rfl
    | symm x y _ ih => exact ih.symm
    | trans x y z _ _ ih1 ih2 => exact ih1.trans ih2

theorem id_eq_iff_eqvGen_bot (a b : Nat) :
    (id a = id b) ↔ Relation.EqvGen (fun _ _ => False) a b := by
  constructor
  · intro h
    simp only [id] at h
    subst h
    exact Relation.EqvGen.refl a
  · intro h
    induction h with
    | rel x y hxy => exact absurd hxy (fun c => c)
    | refl x => rfl
    | symm x y _ ih => exact ih.symm
    | trans x y z _ _ ih1 ih2 => exact ih1.trans ih2

theorem foldl_mergeStep_equiv (edges : List (Nat × Nat)) :
    ∀ (f : Nat → Nat) (r : Nat → Nat → Prop),
      (∀ a b, f a = f b ↔ Relation.EqvGen r a b) →
      ∀ a b, (edges.foldl mergeStep f) a = (edges.foldl mergeStep f) b ↔
        Relation.EqvGen (fun x y => r x y ∨ (x, y) ∈ edges) a b := by
  induction edges with
  | nil =>
    intro f r hf a b
    simp only [List.foldl_nil]
    rw [hf a b]
    exact eqvGen_congr (fun x y => by simp) a b
  | cons e rest ih =>
    intro f r hf a b
    simp only [List.foldl_cons]
    rw [ih (mergeStep f e) (fun x y => r x y ∨ (x = e.1 ∧ y = e.2))
      (mergeStep_equiv f r hf e) a b]
    refine eqvGen_congr (fun x y => ?_) a b
    simp only [List.mem_cons, Prod.ext_iff]
    tauto

/-- Claim C4: for any finite method set with its dependency
configurations, the process mapping computed by `_build_processes` puts
two methods in the same process index exactly when they are joined by a
path of sync-active dependency edges (the connected components of the
undirected sync graph). -/
theorem c4_process_partition_eq_sync_components (methods : List Nat)
    (deps : Nat → List (Nat × Bool × Bool)) (a b : Nat) :
    buildProcessMapping (syncActiveEdges methods deps) a =
      buildProcessMapping (syncActiveEdges methods deps) b ↔
      Relation.EqvGen (edgeRel (syncActiveEdges methods deps)) a b := by
  unfold buildProcessMapping
  rw [foldl_mergeStep_equiv (syncActiveEdges methods deps) id
    (fun _ _ => False) id_eq_iff_eqvGen_bot a b]
  exact eqvGen_congr (fun x y => by simp [edgeRel]) a b

/-! ### Dependency registration during Connection construction
(src/carbon/core/connection.py:106-129 against
src/carbon/core/datamethod.py:18-41) -/

/-- The parameter names of the `DependencyConfiguration` dataclass
(datamethod.py:18-28; its docstring documents `merge_sink_index`). -/
def dependencyConfigurationFields : List String :=
  ["merge_sink_index", "sync", "active"]

/-- The parameter names of the `DependentConfiguration` dataclass
(datamethod.py:31-41; its docstring documents `split_source_index`). -/
def dependentConfigurationFields : List String :=
  ["split_source_index", "sync", "active"]

/-- A Python keyword call of a dataclass constructor: it succeeds only
when every supplied keyword is a declared parameter; an undeclared
keyword raises a TypeError.  The values passed do not affect whether
the call succeeds, so only the keyword names are modelled. -/
def callDataclassKw (fields : List String) (kwargs : List String) :
    Except String Unit :=
  match kwargs.find? (fun k => !(fields.contains k)) with
  | some k => Except.error ("TypeError: unexpected keyword argument " ++ k)
  | none => Except.ok ()

/-- The keywords `Connection.__init__` supplies at connection.py:108-118
when building the consumer-side dependency configuration. -/
def dependencyCallKeywords : List String := ["merge_consumer_index", "sync"]

/-- The keywords `Connection.__init__` supplies at connection.py:119-128
when building the producer-side dependent configuration. -/
def dependentCallKeywords : List String := ["split_producer_index", "sync"]

/-- The producer-consumer index pairs visited by the registration double
loop at connection.py:106-107. -/
def pairIndices (numProducers numConsumers : Nat) : List (Nat × Nat) :=
  (List.range numProducers).flatMap fun i =>
    (List.range numConsumers).map fun j => (i, j)

/-- Embedding of the registration double loop of `Connection.__init__`
(connection.py:106-129): for every (producer, consumer) pair, construct
a `DependencyConfiguration` and a `DependentConfiguration` with the
keywords the source supplies. -/
def registerDependencyPairs (numProducers numConsumers : Nat) :
    Except String Unit :=
  (pairIndices numProducers numConsumers).foldlM
    (fun _ _ => do
      let _ ← callDataclassKw dependencyConfigurationFields
        dependencyCallKeywords
      callDataclassKw dependentConfigurationFields dependentCallKeywords)
    ()

/-- Claim C5, settled against the code as written: the registration loop
of `Connection.__init__` raises a TypeError on its very first pair,
because it passes the keyword `merge_consumer_index` while the
`DependencyConfiguration` dataclass declares the field
`merge_sink_index`.  No dependency configuration is ever recorded. -/
theorem c5_dependency_registration_type_error (np nc : Nat)
    (hp : 1 ≤ np) (hc : 1 ≤ nc) :
    registerDependencyPairs np nc =
      Except.error
        "TypeError: unexpected keyword argument merge_consumer_index" := by
  unfold registerDependencyPairs
  have hmem : ((0 : Nat), (0 : Nat)) ∈ pairIndices np nc := by
    simp only [pairIndices, List.mem_flatMap, List.mem_map, List.mem_range]
    exact ⟨0, by omega, 0, by omega, rfl⟩
  obtain ⟨p, l, hl⟩ : ∃ p l, pairIndices np nc = p :: l := by
    cases hpl : pairIndices np nc with
    | nil => rw [hpl] at hmem; exact absurd hmem (List.not_mem_nil _)
    | cons p l => exact ⟨p, l, rfl⟩
  rw [hl]
  rfl

/-- Witness for C5: the TypeError evaluated on a single-producer,
single-consumer connection. -/
theorem c5_dependency_registration_type_error_witness :
    registerDependencyPairs 1 1 =
      Except.error
        "TypeError: unexpected keyword argument merge_consumer_index" :=
  c5_dependency_registration_type_error 1 1 (by decide) (by decide)

/-! ### Worker-loop re-append guard
(src/carbon/core/execution.py:162-193 against
src/carbon/core/datamethod.py:56-94) -/

/-- The attribute names a `DataMethod` instance exposes: the instance
attributes assigned in `__init__` (datamethod.py:56-94) and the
properties and methods declared on the class.  There is no attribute
named `consumers`; the consumed-type tuple is named `sinks`. -/
def dataMethodAttributeNames : List String :=
  ["method", "sources", "source_indices", "sinks", "sink_indices",
    "input_queue", "remaining_for_execution",
    "_dependency_to_configuration", "_dependent_to_configuration",
    "name", "active", "add_dependency", "add_dependent",
    "block_dependency", "block_dependent", "dependencies",
    "active_dependencies", "active_dependency_generator", "dependents",
    "active_dependents", "active_dependent_generator",
    "get_dependent_configuration", "get_dependency_configuration",
    "is_ready_for_execution", "pop_data_for_execution", "receive_data",
    "execute"]

/-- The readiness and slot count a worker sees on a method after
executing it. -/
structure WorkerMethodView where
  remaining : Finset Nat
  numSinks : Nat
deriving DecidableEq

/-- Embedding of the re-append guard at execution.py:191,
`if method.is_ready_for_execution and method.consumers:`.  Python
evaluates left to right: when the method is no longer ready the guard is
False; when it is still ready, the attribute `consumers` is looked up on
the `DataMethod` instance — if it existed the guard would yield its
truthiness (intended: whether the method has consumer slots). -/
def workerReappendCheck (m : WorkerMethodView) : Except String Bool :=
  if m.remaining = ∅ then
    if dataMethodAttributeNames.contains "consumers" then
      Except.ok (decide (0 < m.numSinks))
    else
      Except.error
        "AttributeError: DataMethod object has no attribute consumers"
  else Except.ok false

/-- Claim C6, settled against the code as written: a source method (no
consumer slots, hence always ready) reaches the re-append guard after
its first execution, and the guard raises an AttributeError because
`DataMethod` has no attribute `consumers` — so neither the re-append
decision nor the once-per-iteration behaviour the claim describes is
ever taken. -/
theorem c6_reappend_guard_attribute_error :
    dataMethodAttributeNames.contains "consumers" = false ∧
      workerReappendCheck ⟨∅, 0⟩ =
        Except.error
          "AttributeError: DataMethod object has no attribute consumers" :=
  ⟨rfl, rfl⟩

/-! ### Assembly-time configuration checks of Connection construction
(src/carbon/core/connection.py:33-129, src/carbon/connection.py:18-43) -/

/-- The inputs of the validation phase of core `Connection.__init__`:
side arities, data-tuple length, how many modules of each endpoint offer
the data type (the `retrieve_producer_module` / `retrieve_consumer_module`
lookups, connection.py:131-153), the configuration of the affected
consumer slot, and the sync flag. -/
structure ConnectionInputs where
  numProducers : Nat
  numConsumers : Nat
  numData : Nat
  producerModulesForData : Nat
  consumerModulesForData : Nat
  slotConfiguration : SinkConfiguration
  sync : Bool
deriving DecidableEq

/-- Embedding of every check core `Connection.__init__` performs before
the registration loop (connection.py:40-104), in source order: the
multi-to-multi assertion, the two side-length checks, and the
endpoint-lookup failures.  No branch examines `slotConfiguration` or
`sync`. -/
def connectionConfigChecks (c : ConnectionInputs) : Except String Unit :=
  if 1 < c.numProducers ∧ 1 < c.numConsumers then
    Except.error
      "Cannot connect multiple producers to multiple consumers directly."
  else if 1 < c.numProducers ∧ c.numProducers ≠ c.numData then
    Except.error
      "If multiple producers are provided, data must also be a sequence of the same length."
  else if 1 < c.numConsumers ∧ c.numConsumers ≠ c.numData then
    Except.error
      "If multiple consumers are provided, data must also be a sequence of the same length."
  else if c.producerModulesForData = 0 then
    Except.error "Producer does not produce data type."
  else if 1 < c.producerModulesForData then
    Except.error "Producer produces data type from multiple modules."
  else if c.consumerModulesForData = 0 then
    Except.error "Consumer does not consume data type."
  else if 1 < c.consumerModulesForData then
    Except.error "Consumer consumes data type from multiple modules."
  else Except.ok ()

/-- Claim C8 as stated: constructing a connection with sync = true whose
affected consumer slot has capacity above 1 or sticky = true fails some
assembly-time configuration check. -/
def ClaimC8 : Prop :=
  ∀ c : ConnectionInputs, c.sync = true →
    (1 < c.slotConfiguration.queue_size ∨ c.slotConfiguration.sticky = true) →
    ∃ e, connectionConfigChecks c = Except.error e

/-- Counterexample for C8: a sync connection between one producer and
one consumer whose slot is configured with capacity 2 and sticky passes
every configuration check of core `Connection.__init__`. -/
theorem c8_counterexample : ¬ ClaimC8 := by
  intro h
  obtain ⟨e, he⟩ := h ⟨1, 1, 1, 1, 1, ⟨2, true⟩, true⟩ rfl (Or.inl (by decide))
  rw [show connectionConfigChecks ⟨1, 1, 1, 1, 1, ⟨2, true⟩, true⟩ =
    Except.ok () from rfl] at he
  exact Except.noConfusion he

/-- The connection kinds of the legacy API
(src/carbon/connection.py:10-15): BLOCKING is the sync kind. -/
inductive LegacyConnectionKind where
  | blocking
  | nonBlocking
deriving DecidableEq

/-- Embedding of `ConnectionMetadata.__post_init__`
(src/carbon/connection.py:24-33): queue size at least 1 always, and for
BLOCKING (sync) connections no sticky queue and queue size exactly 1. -/
def connectionMetadataPostInit (t : LegacyConnectionKind) (queue_size : Nat)
    (sticky_queue : Bool) : Except String Unit :=
  if queue_size < 1 then
    Except.error "Queue size must be at least 1."
  else
    match t with
    | .blocking =>
      if sticky_queue = true then
        Except.error "Sticky queues are not allowed for blocking connections."
      else if queue_size ≠ 1 then
        Except.error "Queue size must be 1 for blocking connections."
      else Except.ok ()
    | .nonBlocking => Except.ok ()

/-- Claim C8 amended: core `Connection.__init__` performs no
capacity/sticky validation at all — with valid endpoints every sync
connection passes its configuration checks whatever the consumer slot's
configuration — and the constraint `sync ⇒ capacity = 1 ∧ ¬sticky` is
enforced only by the legacy `ConnectionMetadata` for BLOCKING (sync)
connections. -/
theorem c8_sync_validation_only_in_legacy :
    (∀ c : ConnectionInputs, c.numProducers = 1 → c.numConsumers = 1 →
      c.producerModulesForData = 1 → c.consumerModulesForData = 1 →
      connectionConfigChecks c = Except.ok ()) ∧
    (∀ (qs : Nat) (st : Bool),
      connectionMetadataPostInit LegacyConnectionKind.blocking qs st =
          Except.ok () ↔ (qs = 1 ∧ st = false)) := by
  constructor
  · intro c h1 h2 h3 h4
    simp [connectionConfigChecks, h1, h2, h3, h4]
  · intro qs st
    constructor
    · intro h
      unfold connectionMetadataPostInit at h
      by_cases h0 : qs < 1
      · rw [if_pos h0] at h; exact absurd h (by simp)
      · rw [if_neg h0] at h
        simp only at h
        by_cases hst : st = true
        · rw [if_pos hst] at h; exact absurd h (by simp)
        · rw [if_neg hst] at h
          by_cases h1 : qs ≠ 1
          · rw [if_pos h1] at h; exact absurd h (by simp)
          · exact ⟨by omega, by simpa using hst⟩
    · rintro ⟨rfl, rfl⟩; rfl

/-- Witness for the amended C8: the core checks accept a sync connection
onto a capacity-3 sticky slot, and the legacy metadata accepts the
blocking kind exactly at queue size 1, not sticky. -/
theorem c8_sync_validation_only_in_legacy_witness :
    connectionConfigChecks ⟨1, 1, 1, 1, 1, ⟨3, true⟩, true⟩ = Except.ok () ∧
      connectionMetadataPostInit LegacyConnectionKind.blocking 1 false =
        Except.ok () :=
  ⟨c8_sync_validation_only_in_legacy.1 ⟨1, 1, 1, 1, 1, ⟨3, true⟩, true⟩
      rfl rfl rfl rfl,
    (c8_sync_validation_only_in_legacy.2 1 false).mpr ⟨rfl, rfl⟩⟩

/-! ### Module.create_connection and the duplicate-connection error
(src/carbon/core/module.py:354-368, 181-190, 419-524) -/

/-- One `Connected` entry appended to an endpoint interface
(module.py:79-93). -/
structure Connected where
  module : Nat
  data : List Nat
  connection_index : Option Nat
  sync : Bool
deriving DecidableEq

/-- A connection identity: `(source tuple, sink tuple, data tuple)`
(module.py:530-539, equality and hashing). -/
abbrev ConnKey := List Nat × List Nat × List Nat

/-- The state `create_connection` touches for a DIRECT single-producer,
single-consumer connection: the producer module's
`_sourced_to_interface[data].connected` list, the consumer module's
`_sinked_to_interface[data].connected` list, and the calling module's
`_connections` / `_blocked_connections` sets. -/
structure CreateConnectionState where
  sourceInterfaceConnected : List Connected
  sinkInterfaceConnected : List Connected
  connections : List ConnKey
  blockedConnections : List ConnKey
deriving DecidableEq

/-- Embedding of the DIRECT branch of `Connection.__init__`
(module.py:482-524): append `Connected(sink, data, None, sync)` to the
source interface and `Connected(source, data, None, sync)` to the sink
interface.  The endpoint type assertions are preconditions of the call
path. -/
def connectionInitDirect (st : CreateConnectionState) (src snk : Nat)
    (data : List Nat) (sync : Bool) : CreateConnectionState :=
  { st with
    sourceInterfaceConnected :=
      st.sourceInterfaceConnected ++ [⟨snk, data, none, sync⟩],
    sinkInterfaceConnected :=
      st.sinkInterfaceConnected ++ [⟨src, data, none, sync⟩] }

/-- `get_connections` of the calling module (module.py:303-317):
its own connections minus the blocked ones. -/
def getConnectionsOfParent (st : CreateConnectionState) : List ConnKey :=
  st.connections.filter (fun k => decide (k ∉ st.blockedConnections))

/-- Embedding of `Module.create_connection` (module.py:354-368): first
the `Connection(...)` constructor runs — mutating both endpoint
interfaces — then `_ensure_unique_connection` (module.py:181-190) raises
if an equal connection already exists, and only otherwise is the key
added to `_connections`.  An error carries the state left behind. -/
def createConnection (st : CreateConnectionState) (src snk : Nat)
    (data : List Nat) (sync : Bool) :
    Except (String × CreateConnectionState) CreateConnectionState :=
  if ([src], [snk], data) ∈
      getConnectionsOfParent (connectionInitDirect st src snk data sync) then
    Except.error ("ValueError: Connection already exists",
      connectionInitDirect st src snk data sync)
  else
    Except.ok
      { connectionInitDirect st src snk data sync with
        connections :=
          (connectionInitDirect st src snk data sync).connections ++
            [([src], [snk], data)] }

/-- Claim C9: when `create_connection` is called with a key equal to an
already-present connection, it raises the duplicate-connection error,
and the state it leaves behind has a `Connected` entry appended to both
endpoint interfaces — the failed call is not atomic. -/
theorem c9_duplicate_error_not_atomic (st : CreateConnectionState)
    (src snk : Nat) (data : List Nat) (sync : Bool)
    (h : ([src], [snk], data) ∈ getConnectionsOfParent st) :
    createConnection st src snk data sync =
        Except.error ("ValueError: Connection already exists",
          connectionInitDirect st src snk data sync) ∧
      (connectionInitDirect st src snk data sync).sourceInterfaceConnected =
        st.sourceInterfaceConnected ++ [⟨snk, data, none, sync⟩] ∧
      (connectionInitDirect st src snk data sync).sinkInterfaceConnected =
        st.sinkInterfaceConnected ++ [⟨src, data, none, sync⟩] := by
  refine ⟨?_, rfl, rfl⟩
  have h2 : ([src], [snk], data) ∈
      getConnectionsOfParent (connectionInitDirect st src snk data sync) := h
  unfold createConnection
  rw [if_pos h2]

/-- Witness for C9: the non-atomic duplicate error evaluated on a
concrete module state already holding the connection key. -/
theorem c9_duplicate_error_not_atomic_witness :
    createConnection ⟨[], [], [([1], [2], [3])], []⟩ 1 2 [3] false =
        Except.error ("ValueError: Connection already exists",
          connectionInitDirect ⟨[], [], [([1], [2], [3])], []⟩ 1 2 [3]
            false) ∧
      (connectionInitDirect ⟨[], [], [([1], [2], [3])], []⟩ 1 2 [3]
          false).sourceInterfaceConnected =
        ([] : List Connected) ++ [⟨2, [3], none, false⟩] ∧
      (connectionInitDirect ⟨[], [], [([1], [2], [3])], []⟩ 1 2 [3]
          false).sinkInterfaceConnected =
        ([] : List Connected) ++ [⟨1, [3], none, false⟩] :=
  c9_duplicate_error_not_atomic ⟨[], [], [([1], [2], [3])], []⟩ 1 2 [3]
    false (by decide)

/-! ### Module attribute assignment registers child modules
(src/carbon/core/module.py:174-179, 222-237, 335-352) -/

/-- The parts of a parent `Module` that attribute assignment and
`add_modules` touch: the `_modules` list, the module's own connection
keys, and the attribute dictionary.  `env` below maps a child module id
to the connection keys its subtree carries (`get_connections`), and
`envMods` maps it to the modules of its subtree (`get_modules`). -/
structure ParentModuleState where
  childModules : List Nat
  connections : List Nat
  attributes : List (String × Nat)
deriving DecidableEq

/-- Recursive `get_connections` of the parent (module.py:303-317): its
own keys plus those of its children's subtrees. -/
def getConnectionsRec (env : Nat → List Nat) (st : ParentModuleState) :
    List Nat :=
  st.connections ++ st.childModules.flatMap env

/-- Embedding of `Module.add_modules` (module.py:222-237): for each
module, every connection its subtree carries is checked against the
parent's current connections (`_ensure_unique_connection` raises on a
duplicate); then the module is appended to `_modules` unless already
present. -/
def addModules (env : Nat → List Nat) :
    ParentModuleState → List Nat → Except String ParentModuleState
  | st, [] => Except.ok st
  | st, m :: rest =>
    if (env m).any (fun k => decide (k ∈ getConnectionsRec env st)) then
      Except.error "ValueError: Connection already exists"
    else if m ∈ st.childModules then addModules env st rest
    else
      addModules env { st with childModules := st.childModules ++ [m] } rest

/-- Embedding of `Module.__setattr__` (module.py:174-179): assigning a
`Module` value first calls `add_modules([value])` and then performs the
ordinary attribute assignment; any other value is assigned directly
(modelled here only for module values). -/
def setattrModule (env : Nat → List Nat) (st : ParentModuleState)
    (name : String) (v : Nat) : Except String ParentModuleState :=
  match addModules env st [v] with
  | Except.error e => Except.error e
  | Except.ok s2 =>
    Except.ok { s2 with attributes := s2.attributes ++ [(name, v)] }

/-- Recursive `get_modules` (module.py:335-352): the parent's child list
extended with the children's subtree modules. -/
def getModules (envMods : Nat → List Nat) (st : ParentModuleState) :
    List Nat :=
  st.childModules ++ st.childModules.flatMap envMods

theorem addModules_single (env : Nat → List Nat) (st : ParentModuleState)
    (v : Nat) :
    addModules env st [v] =
        Except.error "ValueError: Connection already exists" ∨
      (addModules env st [v] = Except.ok st ∧ v ∈ st.childModules) ∨
      (addModules env st [v] =
          Except.ok { st with childModules := st.childModules ++ [v] } ∧
        v ∉ st.childModules) := by
  by_cases h1 : (env v).any (fun k => decide (k ∈ getConnectionsRec env st))
  · left
    simp only [addModules, h1, if_true]
  · by_cases h2 : v ∈ st.childModules
    · right; left
      refine ⟨?_, h2⟩
      simp only [addModules, h1, if_false, if_pos h2]
      rfl
    · right; right
      refine ⟨?_, h2⟩
      simp only [addModules, h1, if_false, if_neg h2]
      rfl

/-- Claim C10: assigning a module as an attribute of a parent is the
`add_modules([child])` registration — including its duplicate-connection
check — followed by the ordinary attribute write; on success the child
is in the parent's module list and among `get_modules()`. -/
theorem c10_setattr_registers_child (env envMods : Nat → List Nat)
    (st : ParentModuleState) (name : String) (v : Nat) :
    (∀ e, setattrModule env st name v = Except.error e ↔
        addModules env st [v] = Except.error e) ∧
      (∀ s2, setattrModule env st name v = Except.ok s2 →
        v ∈ s2.childModules ∧ v ∈ getModules envMods s2 ∧
          addModules env st [v] =
            Except.ok { s2 with attributes := st.attributes }) := by
  rcases addModules_single env st v with h | ⟨h, hv⟩ | ⟨h, hv⟩
  · constructor
    · intro e; simp [setattrModule, h]
    · intro s2 hs2
      rw [setattrModule, h] at hs2
      exact absurd hs2 (by simp)
  · constructor
    · intro e; simp [setattrModule, h]
    · intro s2 hs2
      rw [setattrModule, h] at hs2
      simp only [Except.ok.injEq] at hs2
      subst hs2
      refine ⟨hv, List.mem_append_left _ hv, ?_⟩
      rw [h]
  · constructor
    · intro e; simp [setattrModule, h]
    · intro s2 hs2
      rw [setattrModule, h] at hs2
      simp only [Except.ok.injEq] at hs2
      subst hs2
      have hmem : v ∈ st.childModules ++ [v] :=
        List.mem_append_right _ (List.mem_singleton.mpr rfl)
      exact ⟨hmem, List.mem_append_left _ hmem, by rw [h]⟩

/-- Witness for C10: the registration evaluated on a concrete parent
with no children and no connections. -/
theorem c10_setattr_registers_child_witness :
    (7 : Nat) ∈ (⟨[7], [], [("arm", 7)]⟩ : ParentModuleState).childModules ∧
      (7 : Nat) ∈ getModules (fun _ => []) ⟨[7], [], [("arm", 7)]⟩ ∧
      addModules (fun _ => []) ⟨[], [], []⟩ [7] =
        Except.ok { (⟨[7], [], [("arm", 7)]⟩ : ParentModuleState) with
          attributes := ([] : List (String × Nat)) } :=
  (c10_setattr_registers_child (fun _ => []) (fun _ => [])
      ⟨[], [], []⟩ "arm" 7).2 ⟨[7], [], [("arm", 7)]⟩ rfl

end CarbonSpec
